import Mathlib

/-!
Verification development for the Stock Analyzer script
(`The Stock Analyzer/task/main.py`).

The script's pure logic and its interaction with its collaborators
(environment variables, the HTTP layer, the assistants backend) are
embedded shallowly: every remote interaction is recorded as an `Event`,
the collaborators' replies are supplied through an `Env` record, and
Python exceptions are modelled with `Except PyError`.
-/

namespace StockAnalyser

/-- JSON values as handled by Python's `json` module.  Numbers are kept as
their source lexeme (the script never computes with them, it only passes
them through), and object fields are kept in textual order. -/
inductive Json where
  | null
  | bool (b : Bool)
  | num (lit : String)
  | str (s : String)
  | arr (elems : List Json)
  | obj (fields : List (String × Json))
deriving Repr

/-- Python exceptions the script can raise. -/
inductive PyError where
  | runtimeError (msg : String)
  | httpError (status : Nat)
  | jsonDecodeError
  | keyError (key : String)
  | attributeError
  | typeError
deriving Repr, DecidableEq

/-- The whitespace characters the JSON grammar skips. -/
def jsonWs (c : Char) : Bool :=
  c = ' ' || c = '\t' || c = '\n' || c = '\r'

def skipWs : List Char → List Char
  | [] => []
  | c :: cs => if jsonWs c then skipWs cs else c :: cs

def hexVal (c : Char) : Option Nat :=
  if '0' ≤ c ∧ c ≤ '9' then some (c.toNat - '0'.toNat)
  else if 'a' ≤ c ∧ c ≤ 'f' then some (c.toNat - 'a'.toNat + 10)
  else if 'A' ≤ c ∧ c ≤ 'F' then some (c.toNat - 'A'.toNat + 10)
  else none

def parseHex4 : List Char → Option (Nat × List Char)
  | a :: b :: c :: d :: rest => do
    let va ← hexVal a
    let vb ← hexVal b
    let vc ← hexVal c
    let vd ← hexVal d
    pure (((va * 16 + vb) * 16 + vc) * 16 + vd, rest)
  | _ => none

/-- Body of a JSON string literal, after the opening quote.  Escapes are
those of `json.loads`; surrogate pairs are combined.  (Deviation from
Python: a lone surrogate escape is rejected, since a Lean `Char` cannot
hold it; no claim exercises that corner.) -/
def parseStringBody (fuel : Nat) (cs : List Char) (acc : String) :
    Option (String × List Char) :=
  match fuel, cs with
  | 0, _ => none
  | _, [] => none
  | fuel + 1, c :: cs1 =>
    if c = '"' then some (acc, cs1)
    else if c = '\\' then
      match cs1 with
      | [] => none
      | e :: cs2 =>
        if e = '"' then parseStringBody fuel cs2 (acc.push '"')
        else if e = '\\' then parseStringBody fuel cs2 (acc.push '\\')
        else if e = '/' then parseStringBody fuel cs2 (acc.push '/')
        else if e = 'b' then parseStringBody fuel cs2 (acc.push (Char.ofNat 8))
        else if e = 'f' then parseStringBody fuel cs2 (acc.push (Char.ofNat 12))
        else if e = 'n' then parseStringBody fuel cs2 (acc.push '\n')
        else if e = 'r' then parseStringBody fuel cs2 (acc.push '\r')
        else if e = 't' then parseStringBody fuel cs2 (acc.push '\t')
        else if e = 'u' then
          match parseHex4 cs2 with
          | none => none
          | some (n, cs3) =>
            if 0xd800 ≤ n ∧ n ≤ 0xdbff then
              match cs3 with
              | '\\' :: 'u' :: cs4 =>
                match parseHex4 cs4 with
                | some (m, cs5) =>
                  if 0xdc00 ≤ m ∧ m ≤ 0xdfff then
                    parseStringBody fuel cs5
                      (acc.push (Char.ofNat (0x10000 + (n - 0xd800) * 0x400 + (m - 0xdc00))))
                  else none
                | none => none
              | _ => none
            else if 0xdc00 ≤ n ∧ n ≤ 0xdfff then none
            else parseStringBody fuel cs3 (acc.push (Char.ofNat n))
        else none
    else if c.toNat < 0x20 then none
    else parseStringBody fuel cs1 (acc.push c)

def digitSpan (cs : List Char) : List Char × List Char :=
  cs.span (fun c => c.isDigit)

/-- A JSON number lexeme, following the grammar used by `json.loads`
(`-?(0|[1-9][0-9]*)(\.[0-9]+)?([eE][-+]?[0-9]+)?`); the lexeme is kept
verbatim. -/
def parseNumber (cs : List Char) : Option (String × List Char) :=
  let (sign, cs1) :=
    match cs with
    | '-' :: t => ("-", t)
    | _ => ("", cs)
  match cs1 with
  | [] => none
  | c :: t =>
    if ¬ c.isDigit then none
    else
      let (ip, cs2) :=
        if c = '0' then ("0", t)
        else
          let (ds, r) := digitSpan cs1
          (String.mk ds, r)
      let (fracPart, cs3) :=
        match cs2 with
        | '.' :: t2 =>
          match digitSpan t2 with
          | ([], _) => ("", cs2)
          | (fs, r) => ("." ++ String.mk fs, r)
        | _ => ("", cs2)
      let (expPart, cs4) :=
        match cs3 with
        | e :: t2 =>
          if e = 'e' ∨ e = 'E' then
            let (es, t3) :=
              match t2 with
              | s :: t4 =>
                if s = '+' ∨ s = '-' then (String.mk [e, s], t4)
                else (String.mk [e], t2)
              | [] => (String.mk [e], t2)
            match digitSpan t3 with
            | ([], _) => ("", cs3)
            | (xs, r) => (es ++ String.mk xs, r)
          else ("", cs3)
        | [] => ("", cs3)
      some (sign ++ ip ++ fracPart ++ expPart, cs4)

mutual

/-- One JSON value, as parsed by `json.loads`, fuel-bounded. -/
def parseVal (fuel : Nat) (cs : List Char) : Option (Json × List Char) :=
  match fuel with
  | 0 => none
  | fuel + 1 =>
    match skipWs cs with
    | [] => none
    | c :: cs1 =>
      if c = '\x7b' then
        match skipWs cs1 with
        | '\x7d' :: cs2 => some (.obj [], cs2)
        | cs2 => (parseMembers fuel cs2 []).map (fun p => (.obj p.1, p.2))
      else if c = '[' then
        match skipWs cs1 with
        | ']' :: cs2 => some (.arr [], cs2)
        | cs2 => (parseElems fuel cs2 []).map (fun p => (.arr p.1, p.2))
      else if c = '"' then
        (parseStringBody (cs1.length + 1) cs1 "").map (fun p => (.str p.1, p.2))
      else if c = 't' then
        match cs1 with
        | 'r' :: 'u' :: 'e' :: cs2 => some (.bool true, cs2)
        | _ => none
      else if c = 'f' then
        match cs1 with
        | 'a' :: 'l' :: 's' :: 'e' :: cs2 => some (.bool false, cs2)
        | _ => none
      else if c = 'n' then
        match cs1 with
        | 'u' :: 'l' :: 'l' :: cs2 => some (.null, cs2)
        | _ => none
      else
        (parseNumber (c :: cs1)).map (fun p => (.num p.1, p.2))

/-- The members of a JSON object, after the opening brace (object fields
are kept in textual order, duplicates included). -/
def parseMembers (fuel : Nat) (cs : List Char) (acc : List (String × Json)) :
    Option (List (String × Json) × List Char) :=
  match fuel with
  | 0 => none
  | fuel + 1 =>
    match skipWs cs with
    | '"' :: cs1 =>
      match parseStringBody (cs1.length + 1) cs1 "" with
      | none => none
      | some (k, cs2) =>
        match skipWs cs2 with
        | ':' :: cs3 =>
          match parseVal fuel cs3 with
          | none => none
          | some (v, cs4) =>
            match skipWs cs4 with
            | ',' :: cs5 => parseMembers fuel cs5 (acc ++ [(k, v)])
            | '\x7d' :: cs5 => some (acc ++ [(k, v)], cs5)
            | _ => none
        | _ => none
    | _ => none

/-- The elements of a JSON array, after the opening bracket. -/
def parseElems (fuel : Nat) (cs : List Char) (acc : List Json) :
    Option (List Json × List Char) :=
  match fuel with
  | 0 => none
  | fuel + 1 =>
    match parseVal fuel cs with
    | none => none
    | some (v, cs1) =>
      match skipWs cs1 with
      | ',' :: cs2 => parseElems fuel cs2 (acc ++ [v])
      | ']' :: cs2 => some (acc ++ [v], cs2)
      | _ => none

end

/-- `json.loads`: parse a complete JSON document, rejecting trailing
garbage.  Raises `json.JSONDecodeError` on failure. -/
def loads (s : String) : Except PyError Json :=
  match parseVal (2 * s.length + 2) s.data with
  | none => .error .jsonDecodeError
  | some (v, rest) =>
    if skipWs rest = [] then .ok v else .error .jsonDecodeError

def hexDigit (n : Nat) : Char :=
  if n < 10 then Char.ofNat ('0'.toNat + n) else Char.ofNat ('a'.toNat + n - 10)

def hex4 (n : Nat) : String :=
  String.mk [hexDigit (n / 4096 % 16), hexDigit (n / 256 % 16),
    hexDigit (n / 16 % 16), hexDigit (n % 16)]

/-- Escaping of one character inside a JSON string literal, as done by
`json.dumps` with its default `ensure_ascii=True`. -/
def escapeChar (c : Char) : String :=
  if c = '"' then "\\\""
  else if c = '\\' then "\\\\"
  else if c = '\n' then "\\n"
  else if c = '\t' then "\\t"
  else if c = '\r' then "\\r"
  else if c.toNat = 8 then "\\b"
  else if c.toNat = 12 then "\\f"
  else if 0x20 ≤ c.toNat ∧ c.toNat ≤ 0x7e then String.mk [c]
  else if c.toNat < 0x10000 then "\\u" ++ hex4 c.toNat
  else
    let v := c.toNat - 0x10000
    "\\u" ++ hex4 (0xd800 + v / 0x400) ++ "\\u" ++ hex4 (0xdc00 + v % 0x400)

def encodeString (s : String) : String :=
  "\"" ++ String.join (s.data.map escapeChar) ++ "\""

mutual

/-- `json.dumps` with its default separators. (`num` lexemes are emitted
verbatim; the script only ever round-trips numbers, never computes with
the floats Python would produce.) -/
def dumps : Json → String
  | .null => "null"
  | .bool true => "true"
  | .bool false => "false"
  | .num lit => lit
  | .str s => encodeString s
  | .arr es => "[" ++ dumpsElems es ++ "]"
  | .obj fs => "\x7b" ++ dumpsFields fs ++ "\x7d"

def dumpsElems : List Json → String
  | [] => ""
  | [e] => dumps e
  | e :: rest => dumps e ++ ", " ++ dumpsElems rest

def dumpsFields : List (String × Json) → String
  | [] => ""
  | [(k, v)] => encodeString k ++ ": " ++ dumps v
  | (k, v) :: rest => encodeString k ++ ": " ++ dumps v ++ ", " ++ dumpsFields rest

end

/-- Python `d[key]` on the result of `json.loads`: a `dict` lookup keeps
the last duplicate key; subscripting a non-dict with a string key raises
`TypeError`, a missing key raises `KeyError`. -/
def dictGet (j : Json) (key : String) : Except PyError Json :=
  match j with
  | .obj fields =>
    match fields.reverse.find? (fun kv => kv.1 = key) with
    | some kv => .ok kv.2
    | none => .error (.keyError key)
  | _ => .error .typeError

/-- One tool call reported by the remote run
(`required_action.submit_tool_outputs.tool_calls[i]`). -/
structure ToolCall where
  id : String
  name : String
  arguments : String
deriving Repr, DecidableEq

/-- `run.required_action`. -/
structure RequiredAction where
  type : String
  tool_calls : List ToolCall
deriving Repr, DecidableEq

/-- One poll result (`client.beta.threads.runs.retrieve`). -/
structure RunView where
  status : String
  required_action : Option RequiredAction
deriving Repr, DecidableEq

/-- The one artifact the script submits back
(`{"tool_call_id": ..., "output": ...}`). -/
structure ToolOutput where
  tool_call_id : String
  output : String
deriving Repr, DecidableEq

/-- One part of a message's `content` list. -/
inductive ContentPart where
  | textPart (value : String)
  | imageFilePart (file_id : String)
deriving Repr, DecidableEq

structure Message where
  role : String
  content : List ContentPart
deriving Repr, DecidableEq

structure HttpResponse where
  status : Nat
  body : String
deriving Repr, DecidableEq

/-- Every interaction of the script with the outside world, in order. -/
inductive Event where
  | listAssistants (limit : Nat)
  | createAssistant (id : String)
  | createThread
  | createMessage (role : String) (content : String)
  | createRun (assistant_id : String)
  | pollRun
  | sleepSecs (n : Nat)
  | httpGet (url : String) (params : List (String × Json)) (timeout : Nat)
  | submitToolOutputs (outputs : List ToolOutput)
  | listMessages
  | listRunSteps
  | getFileContent (file_id : String)
  | writeFile (path : String)
deriving Repr

/-- Everything an execution of the script reads from its surroundings:
the process environment, the HTTP layer's reply, the successive poll
results the assistants backend serves, and the final thread messages. -/
structure Env where
  openai_api_key : Option String
  openai_base_url : Option String
  alpha_vantage_api_key : Option String
  http_get : String → List (String × Json) → Nat → HttpResponse
  polls : List RunView
  thread_messages : List Message

def ASSISTANT_NAME : String := "stock_analyzer_assistant"

def ASSISTANT_INSTRUCTIONS : String :=
  "You\x27re an experienced stock analyzer assistant tasked with analyzing " ++
  "and visualizing stock market data. " ++
  "Use the retrieve_stock_data tool to fetch data when needed."

def alphaKeyMissingMsg : String :=
  "ALPHA_VANTAGE_API_KEY is not set in environment variables."

def openaiKeyMissingMsg : String :=
  "OPENAI_API_KEY is not set in environment variables."

def queryUrl : String := "https://www.alphavantage.co/query"

/-- `retrieve_stock_data(function, symbol)`: check the Alpha Vantage key
(Python truthiness: `None` and `""` both fail the `if not api_key`
check), issue one GET with a 15 second timeout, `raise_for_status()`
(which raises exactly on statuses 400–599), and return
`response.json()`.  The `function`/`symbol` values arrive from
`json.loads`, so they are modelled as `Json`. -/
def retrieve_stock_data (env : Env) (function symbol : Json) :
    Except PyError Json × List Event :=
  match env.alpha_vantage_api_key with
  | none => (.error (.runtimeError alphaKeyMissingMsg), [])
  | some api_key =>
    if api_key = "" then (.error (.runtimeError alphaKeyMissingMsg), [])
    else
      let params := [("function", function), ("symbol", symbol),
        ("apikey", Json.str api_key)]
      let resp := env.http_get queryUrl params 15
      ((if 400 ≤ resp.status ∧ resp.status < 600 then
          Except.error (PyError.httpError resp.status)
        else loads resp.body),
        [Event.httpGet queryUrl params 15])

structure Client where
  api_key : String
  base_url : Option String
deriving Repr, DecidableEq

/-- `get_client()`: fail when `OPENAI_API_KEY` is unset (or empty, by
Python truthiness); pass the base-URL override only when truthy.
(`load_dotenv` is local file input, no network.) -/
def get_client (env : Env) : Except PyError Client :=
  match env.openai_api_key with
  | none => .error (.runtimeError openaiKeyMissingMsg)
  | some api_key =>
    if api_key = "" then .error (.runtimeError openaiKeyMissingMsg)
    else
      match env.openai_base_url with
      | some base_url =>
        if base_url = "" then .ok ⟨api_key, none⟩
        else .ok ⟨api_key, some base_url⟩
      | none => .ok ⟨api_key, none⟩

structure Assistant where
  id : String
  name : String
  instructions : String
  model : String
  tools : Json
deriving Repr

/-- The assistants the backend holds, oldest first as it lists them, plus
the id it will hand to the next created assistant. -/
structure Backend where
  assistants : List Assistant
  fresh_id : String
deriving Repr

/-- The `tools` manifest built in `get_or_create_assistant`. -/
def tools_manifest : Json :=
  .arr [
    .obj [("type", .str "code_interpreter")],
    .obj [
      ("type", .str "function"),
      ("function", .obj [
        ("name", .str "retrieve_stock_data"),
        ("description", .str "Retrieve stock time series data from Alpha Vantage."),
        ("parameters", .obj [
          ("type", .str "object"),
          ("properties", .obj [
            ("function", .obj [
              ("type", .str "string"),
              ("description", .str "Alpha Vantage time series function"),
              ("enum", .arr [.str "TIME_SERIES_INTRADAY", .str "TIME_SERIES_DAILY",
                .str "TIME_SERIES_WEEKLY", .str "TIME_SERIES_MONTHLY"])]),
            ("symbol", .obj [
              ("type", .str "string"),
              ("description", .str "Stock symbol (e.g. AAPL).")])]),
          ("required", .arr [.str "function", .str "symbol"])])])]]

/-- `get_or_create_assistant(client)`: list up to 20 assistants, take the
first whose name is `ASSISTANT_NAME`; if found return it unchanged,
otherwise create one with the fixed name, instructions, model and tool
manifest. -/
def get_or_create_assistant (b : Backend) : Assistant × Backend × List Event :=
  match (b.assistants.take 20).find? (fun a => a.name = ASSISTANT_NAME) with
  | some existing => (existing, b, [Event.listAssistants 20])
  | none =>
    let created : Assistant :=
      ⟨b.fresh_id, ASSISTANT_NAME, ASSISTANT_INSTRUCTIONS, "gpt-4o-mini", tools_manifest⟩
    (created, ⟨b.assistants ++ [created], b.fresh_id ++ "+"⟩,
      [Event.listAssistants 20, Event.createAssistant b.fresh_id])

/-- The `result` value computed for one tool call inside the
requires-action branch: `json.loads` the arguments (raising on invalid
JSON, before the name is even looked at), then dispatch on the name; a
recognized name calls the Market Data Client with `args["function"]` /
`args["symbol"]`, an unrecognized one yields the
`{"error": "Unknown tool: <name>"}` object. -/
def toolCallResult (env : Env) (tc : ToolCall) : Except PyError Json × List Event :=
  match loads tc.arguments with
  | .error e => (.error e, [])
  | .ok args =>
    if tc.name = "retrieve_stock_data" ∨ tc.name = "get_stock_data" then
      match dictGet args "function" with
      | .error e => (.error e, [])
      | .ok fv =>
        match dictGet args "symbol" with
        | .error e => (.error e, [])
        | .ok sv => retrieve_stock_data env fv sv
    else
      (.ok (Json.obj [("error", Json.str ("Unknown tool: " ++ tc.name))]), [])

/-- One tool call's contribution to `tool_outputs`: the source appends
`{"tool_call_id": tool_call_id, "output": json.dumps(result)}` whatever
branch produced `result`. -/
def processToolCall (env : Env) (tc : ToolCall) :
    Except PyError ToolOutput × List Event :=
  ((toolCallResult env tc).1.map (fun r => ⟨tc.id, dumps r⟩),
    (toolCallResult env tc).2)

/-- The `for tool_call in tool_calls` loop accumulating `tool_outputs`;
the first exception aborts the whole batch. -/
def fulfillBatch (env : Env) : List ToolCall → Except PyError (List ToolOutput) × List Event
  | [] => (.ok [], [])
  | tc :: rest =>
    match processToolCall env tc with
    | (.error e, evs) => (.error e, evs)
    | (.ok out, evs) =>
      match fulfillBatch env rest with
      | (.error e, evs2) => (.error e, evs ++ evs2)
      | (.ok outs, evs2) => (.ok (out :: outs), evs ++ evs2)

/-- Outcome of the `while True` poll loop.  `outOfPolls` marks that the
supplied poll script ran out while the loop was still going (the real
loop would keep polling). -/
inductive LoopResult where
  | completed
  | terminalOther (status : String)
  | outOfPolls
deriving Repr, DecidableEq

/-- The `while True` loop of `create_thread_and_run`, one iteration per
poll result: `requires_action` with a `submit_tool_outputs` action
fulfills and submits the batch and re-polls (any other action type
re-polls immediately, with no sleep); `queued`/`in_progress` sleeps 3
seconds and re-polls; `completed` and any other status break. -/
def pollLoop (env : Env) : List RunView → Except PyError LoopResult × List Event
  | [] => (.ok .outOfPolls, [])
  | rv :: rest =>
    if rv.status = "requires_action" then
      match rv.required_action with
      | none => (.error .attributeError, [Event.pollRun])
      | some ra =>
        if ra.type = "submit_tool_outputs" then
          match fulfillBatch env ra.tool_calls with
          | (.error e, evs) => (.error e, Event.pollRun :: evs)
          | (.ok outs, evs) =>
            ((pollLoop env rest).1,
              Event.pollRun :: (evs ++ Event.submitToolOutputs outs ::
                (pollLoop env rest).2))
        else
          ((pollLoop env rest).1, Event.pollRun :: (pollLoop env rest).2)
    else if rv.status = "queued" ∨ rv.status = "in_progress" then
      ((pollLoop env rest).1,
        Event.pollRun :: Event.sleepSecs 3 :: (pollLoop env rest).2)
    else if rv.status = "completed" then
      (.ok .completed, [Event.pollRun])
    else
      (.ok (.terminalOther rv.status), [Event.pollRun])

/-- The candidate file id one content part yields in the image-id scan
(`image_file` parts always, `text` parts when the stripped value starts
with `file-`). -/
def partFileId : ContentPart → Option String
  | .imageFilePart fid => some fid
  | .textPart v => if (v.trim).startsWith "file-" then some v.trim else none

/-- The first content part of a message that yields a candidate
(the inner `for`/`break`). -/
def msgCandidate (m : Message) : Option String :=
  m.content.findSome? partFileId

/-- The outer message scan: non-assistant messages are skipped; a truthy
candidate stops the scan, a falsy one is kept and the scan goes on
(mirroring `if file_id: break` on the accumulated variable). -/
def findFileId : List Message → String → String
  | [], acc => acc
  | m :: rest, acc =>
    if m.role = "assistant" then
      match msgCandidate m with
      | some fid => if fid = "" then findFileId rest fid else fid
      | none => findFileId rest acc
    else
      findFileId rest acc

/-- Step 5 of `create_thread_and_run`: list the thread messages, take the
newest assistant message, join its text parts with newlines, list the
run steps, and download `stock-image.png` when a file id is found.
Returns the extracted text (when any assistant message exists) and the
interactions performed. -/
def extractResults (env : Env) : Option String × List Event :=
  let evs := [Event.listMessages]
  match env.thread_messages.filter (fun m => m.role = "assistant") with
  | [] => (none, evs)
  | last_msg :: _ =>
    let text_parts := last_msg.content.filterMap (fun c =>
      match c with
      | .textPart v => some v
      | .imageFilePart _ => none)
    let full_text := String.intercalate "\n" text_parts
    let evs := evs ++ [Event.listRunSteps]
    let fid := findFileId env.thread_messages ""
    if fid = "" then (some full_text, evs)
    else (some full_text,
      evs ++ [Event.getFileContent fid, Event.writeFile "stock-image.png"])

/-- How one whole execution of `create_thread_and_run` ends. -/
inductive DriverOutcome where
  | finished (extracted_text : Option String)
  | stillPolling
  | raised (e : PyError)
deriving Repr, DecidableEq

def user_prompt : String :=
  "Retrieve and visualize the monthly time series data for the stock " ++
  "symbol \x27AAPL\x27 for the latest 3 months."

/-- `create_thread_and_run(client, assistant_id)`: create the thread,
post the fixed user prompt, create the run, drive the poll loop, and —
however the loop breaks — run the result-extraction step. -/
def create_thread_and_run (env : Env) (assistant_id : String) :
    DriverOutcome × List Event :=
  let evs0 := [Event.createThread, Event.createMessage "user" user_prompt,
    Event.createRun assistant_id]
  match pollLoop env env.polls with
  | (.error e, evs) => (.raised e, evs0 ++ evs)
  | (.ok .outOfPolls, evs) => (.stillPolling, evs0 ++ evs)
  | (.ok _, evs) =>
    ((DriverOutcome.finished (extractResults env).1),
      evs0 ++ evs ++ (extractResults env).2)

/-- `main()`: build the client, provision the assistant, run the driver. -/
def main (env : Env) (b : Backend) : DriverOutcome × List Event :=
  match get_client env with
  | .error e => (.raised e, [])
  | .ok _client =>
    let provisioned := get_or_create_assistant b
    let driven := create_thread_and_run env provisioned.1.id
    (driven.1, provisioned.2.2 ++ driven.2)

/-- Interactions that touch the network (everything but sleeping and the
local file write). -/
def Event.isNetwork : Event → Bool
  | .sleepSecs _ => false
  | .writeFile _ => false
  | _ => true

def isHttpGetEvent : Event → Bool
  | .httpGet _ _ _ => true
  | _ => false

def isSubmitEvent : Event → Bool
  | .submitToolOutputs _ => true
  | _ => false

/-- The per-call body of the requires-action branch completes without an
exception: the arguments parse and, when the name is recognized, the
required fields are present and the Market Data Client returns a result. -/
def callFulfillable (env : Env) (tc : ToolCall) : Prop :=
  ∃ r evs, toolCallResult env tc = (.ok r, evs)

theorem processToolCall_events_eq (env : Env) (tc : ToolCall) :
    (processToolCall env tc).2 = (toolCallResult env tc).2 := rfl

theorem processToolCall_of_result_ok {env : Env} {tc : ToolCall} {r : Json}
    {evs : List Event} (h : toolCallResult env tc = (.ok r, evs)) :
    processToolCall env tc = (.ok ⟨tc.id, dumps r⟩, evs) := by
  unfold processToolCall
  rw [h]
  rfl

theorem processToolCall_of_result_error {env : Env} {tc : ToolCall} {e : PyError}
    {evs : List Event} (h : toolCallResult env tc = (.error e, evs)) :
    processToolCall env tc = (.error e, evs) := by
  unfold processToolCall
  rw [h]
  rfl

theorem processToolCall_ok_inv {env : Env} {tc : ToolCall} {out : ToolOutput}
    {evs : List Event} (h : processToolCall env tc = (.ok out, evs)) :
    ∃ r, toolCallResult env tc = (.ok r, evs) ∧ out = ⟨tc.id, dumps r⟩ := by
  unfold processToolCall at h
  rcases htr : toolCallResult env tc with ⟨r1, evs1⟩
  rw [htr] at h
  cases r1 with
  | error e => simp [Except.map] at h
  | ok r =>
    simp [Except.map] at h
    obtain ⟨hout, hevs⟩ := h
    exact ⟨r, by rw [hevs], hout.symm⟩

theorem retrieve_events_httpGet (env : Env) (f s : Json) :
    ∀ e ∈ (retrieve_stock_data env f s).2, isHttpGetEvent e = true := by
  unfold retrieve_stock_data
  rcases env.alpha_vantage_api_key with _ | k
  · simp
  · by_cases hk : k = ""
    · simp [hk]
    · simp only [if_neg hk]
      simp [isHttpGetEvent]

theorem toolCallResult_events (env : Env) (tc : ToolCall) :
    ∀ e ∈ (toolCallResult env tc).2, isHttpGetEvent e = true := by
  unfold toolCallResult
  split
  · simp
  · split
    · split
      · simp
      · split
        · simp
        · exact retrieve_events_httpGet env _ _
    · simp

theorem fulfillBatch_events (env : Env) (calls : List ToolCall) :
    ∀ e ∈ (fulfillBatch env calls).2, isHttpGetEvent e = true := by
  induction calls with
  | nil => simp [fulfillBatch]
  | cons tc rest ih =>
    have hp := toolCallResult_events env tc
    unfold fulfillBatch
    rcases hpc : processToolCall env tc with ⟨r, evs⟩
    have hevs : ∀ e ∈ evs, isHttpGetEvent e = true := by
      intro e he
      apply hp
      have h2 : (toolCallResult env tc).2 = evs := by
        rw [← processToolCall_events_eq, hpc]
      rw [h2]
      exact he
    cases r with
    | error e => simpa using hevs
    | ok out =>
      rcases hb : fulfillBatch env rest with ⟨r2, evs2⟩
      rw [hb] at ih
      cases r2 with
      | error e =>
        intro e2 he2
        rcases List.mem_append.mp he2 with h2 | h2
        · exact hevs _ h2
        · exact ih _ h2
      | ok outs =>
        intro e2 he2
        rcases List.mem_append.mp he2 with h2 | h2
        · exact hevs _ h2
        · exact ih _ h2

theorem fulfillBatch_ok (env : Env) (calls : List ToolCall)
    (h : ∀ tc ∈ calls, callFulfillable env tc) :
    ∃ outs evs, fulfillBatch env calls = (.ok outs, evs) ∧
      outs.map (fun o => o.tool_call_id) = calls.map (fun c => c.id) := by
  induction calls with
  | nil => exact ⟨[], [], rfl, rfl⟩
  | cons tc rest ih =>
    obtain ⟨r, evs1, hr⟩ := h tc (by simp)
    obtain ⟨outs, evs2, hb, hmap⟩ := ih (fun c hc => h c (by simp [hc]))
    refine ⟨⟨tc.id, dumps r⟩ :: outs, evs1 ++ evs2, ?_, ?_⟩
    · unfold fulfillBatch
      rw [processToolCall_of_result_ok hr, hb]
    · simp [hmap]

theorem fulfillBatch_get (env : Env) (pre : List ToolCall) (tc : ToolCall)
    (post : List ToolCall) {outs : List ToolOutput} {evs : List Event}
    (h : fulfillBatch env (pre ++ tc :: post) = (.ok outs, evs)) :
    ∃ r, (toolCallResult env tc).1 = .ok r ∧
      outs.get? pre.length = some ⟨tc.id, dumps r⟩ := by
  induction pre generalizing outs evs with
  | nil =>
    rw [List.nil_append] at h
    unfold fulfillBatch at h
    rcases hpc : processToolCall env tc with ⟨r, evs1⟩
    rw [hpc] at h
    cases r with
    | error e => simp at h
    | ok out =>
      rcases hb : fulfillBatch env post with ⟨r2, evs2⟩
      rw [hb] at h
      cases r2 with
      | error e => simp at h
      | ok outs2 =>
        obtain ⟨r, hr, hout⟩ := processToolCall_ok_inv hpc
        refine ⟨r, by rw [hr], ?_⟩
        have : outs = out :: outs2 := by
          have := congrArg Prod.fst h
          simpa using this.symm
        rw [this, hout]
        rfl
  | cons c pre ih =>
    rw [List.cons_append] at h
    unfold fulfillBatch at h
    rcases hpc : processToolCall env c with ⟨r, evs1⟩
    rw [hpc] at h
    cases r with
    | error e => simp at h
    | ok out =>
      rcases hb : fulfillBatch env (pre ++ tc :: post) with ⟨r2, evs2⟩
      rw [hb] at h
      cases r2 with
      | error e => simp at h
      | ok outs2 =>
        obtain ⟨rr, hrr, hget⟩ := ih hb
        refine ⟨rr, hrr, ?_⟩
        have : outs = out :: outs2 := by
          have := congrArg Prod.fst h
          simpa using this.symm
        rw [this]
        simpa using hget

theorem fulfillBatch_error (env : Env) (pre : List ToolCall) (tc : ToolCall)
    (post : List ToolCall) (hpre : ∀ c ∈ pre, callFulfillable env c)
    {e : PyError} {evs : List Event}
    (htc : toolCallResult env tc = (.error e, evs)) :
    ∃ evs2, fulfillBatch env (pre ++ tc :: post) = (.error e, evs2) := by
  induction pre with
  | nil =>
    rw [List.nil_append]
    refine ⟨evs, ?_⟩
    unfold fulfillBatch
    rw [processToolCall_of_result_error htc]
  | cons c pre ih =>
    obtain ⟨r, evs1, hr⟩ := hpre c (by simp)
    obtain ⟨evs2, hb⟩ := ih (fun x hx => hpre x (by simp [hx]))
    refine ⟨evs1 ++ evs2, ?_⟩
    rw [List.cons_append]
    unfold fulfillBatch
    rw [processToolCall_of_result_ok hr, hb]

theorem pollLoop_queued (env : Env) (rv : RunView) (rest : List RunView)
    (h : rv.status = "queued" ∨ rv.status = "in_progress") :
    pollLoop env (rv :: rest) =
      ((pollLoop env rest).1,
        Event.pollRun :: Event.sleepSecs 3 :: (pollLoop env rest).2) := by
  have h1 : ¬ rv.status = "requires_action" := by
    rcases h with h | h <;> simp [h]
  conv_lhs => unfold pollLoop
  rw [if_neg h1, if_pos h]

theorem pollLoop_requires_none (env : Env) (rv : RunView) (rest : List RunView)
    (hst : rv.status = "requires_action") (hra : rv.required_action = none) :
    pollLoop env (rv :: rest) = (.error .attributeError, [Event.pollRun]) := by
  unfold pollLoop
  rw [if_pos hst, hra]

theorem pollLoop_requires_submit (env : Env) (rv : RunView) (ra : RequiredAction)
    (rest : List RunView) {outs : List ToolOutput} {fevs : List Event}
    (hst : rv.status = "requires_action") (hra : rv.required_action = some ra)
    (hty : ra.type = "submit_tool_outputs")
    (hb : fulfillBatch env ra.tool_calls = (.ok outs, fevs)) :
    pollLoop env (rv :: rest) =
      ((pollLoop env rest).1,
        Event.pollRun ::
          (fevs ++ Event.submitToolOutputs outs :: (pollLoop env rest).2)) := by
  conv_lhs => unfold pollLoop
  rw [if_pos hst, hra]
  simp only [if_pos hty, hb]

theorem pollLoop_requires_submit_error (env : Env) (rv : RunView)
    (ra : RequiredAction) (rest : List RunView) {e : PyError} {fevs : List Event}
    (hst : rv.status = "requires_action") (hra : rv.required_action = some ra)
    (hty : ra.type = "submit_tool_outputs")
    (hb : fulfillBatch env ra.tool_calls = (.error e, fevs)) :
    pollLoop env (rv :: rest) = (.error e, Event.pollRun :: fevs) := by
  unfold pollLoop
  rw [if_pos hst, hra]
  simp only [if_pos hty, hb]

theorem pollLoop_requires_other (env : Env) (rv : RunView) (ra : RequiredAction)
    (rest : List RunView) (hst : rv.status = "requires_action")
    (hra : rv.required_action = some ra) (hty : ¬ ra.type = "submit_tool_outputs") :
    pollLoop env (rv :: rest) =
      ((pollLoop env rest).1, Event.pollRun :: (pollLoop env rest).2) := by
  conv_lhs => unfold pollLoop
  rw [if_pos hst, hra]
  simp only [if_neg hty]

theorem pollLoop_completed (env : Env) (rv : RunView) (rest : List RunView)
    (hst : rv.status = "completed") :
    pollLoop env (rv :: rest) = (.ok .completed, [Event.pollRun]) := by
  have h1 : ¬ rv.status = "requires_action" := by simp [hst]
  have h2 : ¬ (rv.status = "queued" ∨ rv.status = "in_progress") := by simp [hst]
  unfold pollLoop
  rw [if_neg h1, if_neg h2, if_pos hst]

theorem pollLoop_terminal (env : Env) (rv : RunView) (rest : List RunView)
    (h1 : ¬ rv.status = "requires_action") (h2 : ¬ rv.status = "queued")
    (h3 : ¬ rv.status = "in_progress") (h4 : ¬ rv.status = "completed") :
    pollLoop env (rv :: rest) =
      (.ok (.terminalOther rv.status), [Event.pollRun]) := by
  unfold pollLoop
  rw [if_neg h1, if_neg (by simp [h2, h3]), if_neg h4]

/-- Exhaustive case split on one loop iteration, phrased through the
equation lemmas above. -/
theorem pollLoop_cases (rv : RunView) :
    (rv.status = "requires_action" ∧ rv.required_action = none) ∨
    (∃ ra, rv.status = "requires_action" ∧ rv.required_action = some ra) ∨
    (rv.status = "queued" ∨ rv.status = "in_progress") ∨
    rv.status = "completed" ∨
    (¬ rv.status = "requires_action" ∧ ¬ rv.status = "queued" ∧
      ¬ rv.status = "in_progress" ∧ ¬ rv.status = "completed") := by
  by_cases hst : rv.status = "requires_action"
  · rcases hra : rv.required_action with _ | ra
    · exact Or.inl ⟨hst, rfl⟩
    · exact Or.inr (Or.inl ⟨ra, hst, rfl⟩)
  · by_cases hq : rv.status = "queued"
    · exact Or.inr (Or.inr (Or.inl (Or.inl hq)))
    · by_cases hip : rv.status = "in_progress"
      · exact Or.inr (Or.inr (Or.inl (Or.inr hip)))
      · by_cases hc : rv.status = "completed"
        · exact Or.inr (Or.inr (Or.inr (Or.inl hc)))
        · exact Or.inr (Or.inr (Or.inr (Or.inr ⟨hst, hq, hip, hc⟩)))

theorem submit_not_in_fulfill_events (env : Env) (calls : List ToolCall)
    {fevs : List Event} (hb : (fulfillBatch env calls).2 = fevs)
    (outs : List ToolOutput) : Event.submitToolOutputs outs ∉ fevs := by
  intro hm
  have := fulfillBatch_events env calls (Event.submitToolOutputs outs)
    (by rw [hb]; exact hm)
  simp [isHttpGetEvent] at this

theorem pollLoop_submit_mem (env : Env) (polls : List RunView)
    (outs : List ToolOutput)
    (h : Event.submitToolOutputs outs ∈ (pollLoop env polls).2) :
    ∃ rv ∈ polls, rv.status = "requires_action" ∧
      ∃ ra, rv.required_action = some ra ∧ ra.type = "submit_tool_outputs" := by
  induction polls with
  | nil => simp [pollLoop] at h
  | cons rv rest ih =>
    rcases pollLoop_cases rv with ⟨hst, hra⟩ | ⟨ra, hst, hra⟩ | hq | hc | hterm
    · rw [pollLoop_requires_none env rv rest hst hra] at h
      simp at h
    · by_cases hty : ra.type = "submit_tool_outputs"
      · rcases hb : fulfillBatch env ra.tool_calls with ⟨r, fevs⟩
        have hnotin := submit_not_in_fulfill_events env ra.tool_calls
          (by rw [hb]) outs
        cases r with
        | error e =>
          rw [pollLoop_requires_submit_error env rv ra rest hst hra hty hb] at h
          simp at h
          exact absurd h hnotin
        | ok outs2 =>
          exact ⟨rv, by simp, hst, ra, hra, hty⟩
      · rw [pollLoop_requires_other env rv ra rest hst hra hty] at h
        simp at h
        obtain ⟨rv2, hm, hrest⟩ := ih h
        exact ⟨rv2, by simp [hm], hrest⟩
    · rw [pollLoop_queued env rv rest hq] at h
      simp at h
      obtain ⟨rv2, hm, hrest⟩ := ih h
      exact ⟨rv2, by simp [hm], hrest⟩
    · rw [pollLoop_completed env rv rest hc] at h
      simp at h
    · obtain ⟨h1, h2, h3, h4⟩ := hterm
      rw [pollLoop_terminal env rv rest h1 h2 h3 h4] at h
      simp at h

theorem pollLoop_completed_mem (env : Env) (polls : List RunView)
    (h : (pollLoop env polls).1 = .ok .completed) :
    ∃ rv ∈ polls, rv.status = "completed" := by
  induction polls with
  | nil => simp [pollLoop] at h
  | cons rv rest ih =>
    rcases pollLoop_cases rv with ⟨hst, hra⟩ | ⟨ra, hst, hra⟩ | hq | hc | hterm
    · rw [pollLoop_requires_none env rv rest hst hra] at h
      simp at h
    · by_cases hty : ra.type = "submit_tool_outputs"
      · rcases hb : fulfillBatch env ra.tool_calls with ⟨r, fevs⟩
        cases r with
        | error e =>
          rw [pollLoop_requires_submit_error env rv ra rest hst hra hty hb] at h
          simp at h
        | ok outs2 =>
          rw [pollLoop_requires_submit env rv ra rest hst hra hty hb] at h
          obtain ⟨rv2, hm, hrest⟩ := ih h
          exact ⟨rv2, by simp [hm], hrest⟩
      · rw [pollLoop_requires_other env rv ra rest hst hra hty] at h
        obtain ⟨rv2, hm, hrest⟩ := ih h
        exact ⟨rv2, by simp [hm], hrest⟩
    · rw [pollLoop_queued env rv rest hq] at h
      obtain ⟨rv2, hm, hrest⟩ := ih h
      exact ⟨rv2, by simp [hm], hrest⟩
    · exact ⟨rv, by simp, hc⟩
    · obtain ⟨h1, h2, h3, h4⟩ := hterm
      rw [pollLoop_terminal env rv rest h1 h2 h3 h4] at h
      simp at h

theorem pollLoop_terminalOther_mem (env : Env) (polls : List RunView)
    {s : String} (h : (pollLoop env polls).1 = .ok (.terminalOther s)) :
    ∃ rv ∈ polls, rv.status = s ∧ ¬ s = "requires_action" ∧ ¬ s = "queued" ∧
      ¬ s = "in_progress" ∧ ¬ s = "completed" := by
  induction polls with
  | nil => simp [pollLoop] at h
  | cons rv rest ih =>
    rcases pollLoop_cases rv with ⟨hst, hra⟩ | ⟨ra, hst, hra⟩ | hq | hc | hterm
    · rw [pollLoop_requires_none env rv rest hst hra] at h
      simp at h
    · by_cases hty : ra.type = "submit_tool_outputs"
      · rcases hb : fulfillBatch env ra.tool_calls with ⟨r, fevs⟩
        cases r with
        | error e =>
          rw [pollLoop_requires_submit_error env rv ra rest hst hra hty hb] at h
          simp at h
        | ok outs2 =>
          rw [pollLoop_requires_submit env rv ra rest hst hra hty hb] at h
          obtain ⟨rv2, hm, hrest⟩ := ih h
          exact ⟨rv2, by simp [hm], hrest⟩
      · rw [pollLoop_requires_other env rv ra rest hst hra hty] at h
        obtain ⟨rv2, hm, hrest⟩ := ih h
        exact ⟨rv2, by simp [hm], hrest⟩
    · rw [pollLoop_queued env rv rest hq] at h
      obtain ⟨rv2, hm, hrest⟩ := ih h
      exact ⟨rv2, by simp [hm], hrest⟩
    · rw [pollLoop_completed env rv rest hc] at h
      simp at h
    · obtain ⟨h1, h2, h3, h4⟩ := hterm
      rw [pollLoop_terminal env rv rest h1 h2 h3 h4] at h
      have hs : rv.status = s := by simpa using h
      exact ⟨rv, by simp, hs, hs ▸ h1, hs ▸ h2, hs ▸ h3, hs ▸ h4⟩

/-- The Alpha Vantage key failing the `if not api_key` truthiness check. -/
def alphaKeyMissing (env : Env) : Prop :=
  env.alpha_vantage_api_key = none ∨ env.alpha_vantage_api_key = some ""

theorem retrieve_no_events_of_missing (env : Env) (h : alphaKeyMissing env)
    (f s : Json) : (retrieve_stock_data env f s).2 = [] := by
  unfold retrieve_stock_data
  rcases h with h | h <;> rw [h]
  rfl

theorem toolCallResult_no_events_of_missing (env : Env) (h : alphaKeyMissing env)
    (tc : ToolCall) : (toolCallResult env tc).2 = [] := by
  unfold toolCallResult
  split
  · rfl
  · split
    · split
      · rfl
      · split
        · rfl
        · exact retrieve_no_events_of_missing env h _ _
    · rfl

theorem fulfillBatch_no_events_of_missing (env : Env) (h : alphaKeyMissing env)
    (calls : List ToolCall) : (fulfillBatch env calls).2 = [] := by
  induction calls with
  | nil => rfl
  | cons tc rest ih =>
    unfold fulfillBatch
    rcases hpc : processToolCall env tc with ⟨r, evs⟩
    have hevs : evs = [] := by
      have h2 := toolCallResult_no_events_of_missing env h tc
      rw [← processToolCall_events_eq, hpc] at h2
      exact h2
    cases r with
    | error e => exact hevs
    | ok out =>
      rcases hb : fulfillBatch env rest with ⟨r2, evs2⟩
      rw [hb] at ih
      cases r2 with
      | error e =>
        simp [hevs]
        simpa using ih
      | ok outs =>
        simp [hevs]
        simpa using ih

theorem pollLoop_no_httpGet_of_missing (env : Env) (h : alphaKeyMissing env)
    (polls : List RunView) :
    ∀ e ∈ (pollLoop env polls).2, isHttpGetEvent e = false := by
  induction polls with
  | nil => simp [pollLoop]
  | cons rv rest ih =>
    rcases pollLoop_cases rv with ⟨hst, hra⟩ | ⟨ra, hst, hra⟩ | hq | hc | hterm
    · rw [pollLoop_requires_none env rv rest hst hra]
      simp [isHttpGetEvent]
    · by_cases hty : ra.type = "submit_tool_outputs"
      · rcases hb : fulfillBatch env ra.tool_calls with ⟨r, fevs⟩
        have hf : fevs = [] := by
          have h2 := fulfillBatch_no_events_of_missing env h ra.tool_calls
          rw [hb] at h2
          exact h2
        cases r with
        | error e =>
          rw [pollLoop_requires_submit_error env rv ra rest hst hra hty hb, hf]
          simp [isHttpGetEvent]
        | ok outs =>
          rw [pollLoop_requires_submit env rv ra rest hst hra hty hb, hf]
          intro e he
          simp at he
          rcases he with he | he | he
          · simp [he, isHttpGetEvent]
          · simp [he, isHttpGetEvent]
          · exact ih e he
      · rw [pollLoop_requires_other env rv ra rest hst hra hty]
        intro e he
        simp at he
        rcases he with he | he
        · simp [he, isHttpGetEvent]
        · exact ih e he
    · rw [pollLoop_queued env rv rest hq]
      intro e he
      simp at he
      rcases he with he | he | he
      · simp [he, isHttpGetEvent]
      · simp [he, isHttpGetEvent]
      · exact ih e he
    · rw [pollLoop_completed env rv rest hc]
      simp [isHttpGetEvent]
    · obtain ⟨h1, h2, h3, h4⟩ := hterm
      rw [pollLoop_terminal env rv rest h1 h2 h3 h4]
      simp [isHttpGetEvent]

theorem extract_events_cases (env : Env) :
    (extractResults env).2 = [Event.listMessages] ∨
    (extractResults env).2 = [Event.listMessages, Event.listRunSteps] ∨
    ∃ fid, (extractResults env).2 = [Event.listMessages, Event.listRunSteps,
      Event.getFileContent fid, Event.writeFile "stock-image.png"] := by
  unfold extractResults
  split
  · left
    rfl
  · by_cases hfid : findFileId env.thread_messages "" = ""
    · right
      left
      simp [hfid]
    · right
      right
      exact ⟨findFileId env.thread_messages "", by simp [hfid]⟩

theorem get_or_create_found (b : Backend) {a : Assistant}
    (h : (b.assistants.take 20).find? (fun x => x.name = ASSISTANT_NAME) = some a) :
    get_or_create_assistant b = (a, b, [Event.listAssistants 20]) := by
  unfold get_or_create_assistant
  rw [h]

theorem get_or_create_notfound (b : Backend)
    (h : (b.assistants.take 20).find? (fun x => x.name = ASSISTANT_NAME) = none) :
    get_or_create_assistant b =
      (⟨b.fresh_id, ASSISTANT_NAME, ASSISTANT_INSTRUCTIONS, "gpt-4o-mini", tools_manifest⟩,
        ⟨b.assistants ++
          [⟨b.fresh_id, ASSISTANT_NAME, ASSISTANT_INSTRUCTIONS, "gpt-4o-mini", tools_manifest⟩],
          b.fresh_id ++ "+"⟩,
        [Event.listAssistants 20, Event.createAssistant b.fresh_id]) := by
  unfold get_or_create_assistant
  rw [h]

def driverPrefix (assistant_id : String) : List Event :=
  [Event.createThread, Event.createMessage "user" user_prompt,
    Event.createRun assistant_id]

theorem create_thread_and_run_raised (env : Env) (aid : String) {e : PyError}
    {evs : List Event} (h : pollLoop env env.polls = (.error e, evs)) :
    create_thread_and_run env aid = (.raised e, driverPrefix aid ++ evs) := by
  unfold create_thread_and_run
  rw [h]
  rfl

theorem create_thread_and_run_completed (env : Env) (aid : String)
    {evs : List Event} (h : pollLoop env env.polls = (.ok .completed, evs)) :
    create_thread_and_run env aid =
      (.finished (extractResults env).1,
        driverPrefix aid ++ evs ++ (extractResults env).2) := by
  unfold create_thread_and_run
  rw [h]
  rfl

theorem create_thread_and_run_terminalOther (env : Env) (aid : String)
    {s : String} {evs : List Event}
    (h : pollLoop env env.polls = (.ok (.terminalOther s), evs)) :
    create_thread_and_run env aid =
      (.finished (extractResults env).1,
        driverPrefix aid ++ evs ++ (extractResults env).2) := by
  unfold create_thread_and_run
  rw [h]
  rfl

theorem create_thread_and_run_outOfPolls (env : Env) (aid : String)
    {evs : List Event} (h : pollLoop env env.polls = (.ok .outOfPolls, evs)) :
    create_thread_and_run env aid = (.stillPolling, driverPrefix aid ++ evs) := by
  unfold create_thread_and_run
  rw [h]
  rfl

theorem get_or_create_events_cases (b : Backend) :
    (get_or_create_assistant b).2.2 = [Event.listAssistants 20] ∨
    (get_or_create_assistant b).2.2 =
      [Event.listAssistants 20, Event.createAssistant b.fresh_id] := by
  unfold get_or_create_assistant
  split
  · left
    rfl
  · right
    rfl

theorem create_thread_and_run_no_httpGet_of_missing (env : Env) (aid : String)
    (h : alphaKeyMissing env) :
    ∀ e ∈ (create_thread_and_run env aid).2, isHttpGetEvent e = false := by
  have hpoll := pollLoop_no_httpGet_of_missing env h env.polls
  have hpre : ∀ e ∈ driverPrefix aid, isHttpGetEvent e = false := by
    simp [driverPrefix, isHttpGetEvent]
  have hext : ∀ e ∈ (extractResults env).2, isHttpGetEvent e = false := by
    rcases extract_events_cases env with hc | hc | ⟨fid, hc⟩ <;>
      rw [hc] <;> simp [isHttpGetEvent]
  rcases hpl : pollLoop env env.polls with ⟨r, evs⟩
  rw [hpl] at hpoll
  cases r with
  | error e2 =>
    rw [create_thread_and_run_raised env aid hpl]
    exact List.forall_mem_append.mpr ⟨hpre, hpoll⟩
  | ok lr =>
    cases lr with
    | outOfPolls =>
      rw [create_thread_and_run_outOfPolls env aid hpl]
      exact List.forall_mem_append.mpr ⟨hpre, hpoll⟩
    | completed =>
      rw [create_thread_and_run_completed env aid hpl]
      exact List.forall_mem_append.mpr
        ⟨List.forall_mem_append.mpr ⟨hpre, hpoll⟩, hext⟩
    | terminalOther s =>
      rw [create_thread_and_run_terminalOther env aid hpl]
      exact List.forall_mem_append.mpr
        ⟨List.forall_mem_append.mpr ⟨hpre, hpoll⟩, hext⟩

theorem main_no_httpGet_of_missing (env : Env) (b : Backend)
    (h : alphaKeyMissing env) :
    ∀ e ∈ (main env b).2, isHttpGetEvent e = false := by
  have hprov : ∀ e ∈ (get_or_create_assistant b).2.2, isHttpGetEvent e = false := by
    rcases get_or_create_events_cases b with hc | hc <;> rw [hc] <;>
      simp [isHttpGetEvent]
  unfold main
  split
  · simp
  · exact List.forall_mem_append.mpr
      ⟨hprov, create_thread_and_run_no_httpGet_of_missing env _ h⟩

/-- A poll result reporting a submit_tool_outputs requires_action batch. -/
def raView (calls : List ToolCall) : RunView :=
  ⟨"requires_action", some ⟨"submit_tool_outputs", calls⟩⟩

/-- A transport layer that always answers 200 with an empty JSON object. -/
def httpOk : String → List (String × Json) → Nat → HttpResponse :=
  fun _ _ _ => ⟨200, "\x7b\x7d"⟩

/-- A fully-provisioned environment with no polls queued. -/
def envBase : Env :=
  { openai_api_key := some "sk-test"
    openai_base_url := none
    alpha_vantage_api_key := some "av-key"
    http_get := httpOk
    polls := []
    thread_messages := [] }

/-- A recognized tool call with well-formed arguments. -/
def wCallRecognized : ToolCall :=
  ⟨"call_a", "retrieve_stock_data",
    "\x7b\"function\": \"TIME_SERIES_MONTHLY\", \"symbol\": \"AAPL\"\x7d"⟩

/-- An unrecognized tool call with parseable arguments. -/
def wCallUnknown : ToolCall := ⟨"call_b", "do_something_else", "\x7b\x7d"⟩

/-- C3: a tool call whose name is neither `retrieve_stock_data` nor
`get_stock_data`, with arguments that parse as JSON, never raises: its
`result` is the `Unknown tool` error object, its ToolOutput is the JSON
serialization of that object under the call's own id, and in any batch
that completes it sits at the call's position in the outputs the driver
submits. -/
theorem c3_unknown_tool_contained (env : Env) (tc : ToolCall)
    (h1 : ¬ tc.name = "retrieve_stock_data") (h2 : ¬ tc.name = "get_stock_data")
    (h3 : ∃ a, loads tc.arguments = .ok a) :
    processToolCall env tc =
      (.ok ⟨tc.id,
        dumps (Json.obj [("error", Json.str ("Unknown tool: " ++ tc.name))])⟩, []) ∧
    ∀ pre post outs fevs rest,
      fulfillBatch env (pre ++ tc :: post) = (.ok outs, fevs) →
      outs.get? pre.length =
        some ⟨tc.id,
          dumps (Json.obj [("error", Json.str ("Unknown tool: " ++ tc.name))])⟩ ∧
      Event.submitToolOutputs outs ∈
        (pollLoop env (raView (pre ++ tc :: post) :: rest)).2 := by
  obtain ⟨a, ha⟩ := h3
  have hres : toolCallResult env tc =
      (.ok (Json.obj [("error", Json.str ("Unknown tool: " ++ tc.name))]), []) := by
    unfold toolCallResult
    rw [ha]
    dsimp only
    rw [if_neg (by tauto)]
  refine ⟨processToolCall_of_result_ok hres, ?_⟩
  intro pre post outs fevs rest hb
  obtain ⟨r, hr, hget⟩ := fulfillBatch_get env pre tc post hb
  have hr2 : r = Json.obj [("error", Json.str ("Unknown tool: " ++ tc.name))] := by
    rw [hres] at hr
    exact (Except.ok.inj hr).symm
  refine ⟨by rw [hget, hr2], ?_⟩
  rw [pollLoop_requires_submit env _ _ rest rfl rfl rfl hb]
  simp

/-- C3 witness: the unknown call `do_something_else` with arguments
`{}` is answered, not raised, and its payload is the interpolated
error object. -/
theorem c3_witness :
    processToolCall envBase wCallUnknown =
      (.ok ⟨wCallUnknown.id,
        dumps (Json.obj [("error",
          Json.str ("Unknown tool: " ++ wCallUnknown.name))])⟩, []) ∧
    ∀ pre post outs fevs rest,
      fulfillBatch envBase (pre ++ wCallUnknown :: post) = (.ok outs, fevs) →
      outs.get? pre.length =
        some ⟨wCallUnknown.id,
          dumps (Json.obj [("error",
            Json.str ("Unknown tool: " ++ wCallUnknown.name))])⟩ ∧
      Event.submitToolOutputs outs ∈
        (pollLoop envBase (raView (pre ++ wCallUnknown :: post) :: rest)).2 :=
  c3_unknown_tool_contained envBase wCallUnknown (by decide) (by decide)
    ⟨Json.obj [], rfl⟩

/-- C7: the poll loop's step relation: `queued`/`in_progress` sleeps the
fixed 3 seconds and re-polls however many such polls arrive (no
iteration bound); a requires_action poll with a submit_tool_outputs
action fulfills the batch, submits it in one call and returns to
polling; the loop exits with COMPLETED only after observing a
`completed` poll, exits with TERMINAL_OTHER only after observing a poll
with such a status, and tool outputs are submitted only after a
requires_action (submit_tool_outputs) status was observed. -/
theorem c7_poll_loop_step_relation (env : Env) :
    (∀ rv rest, (rv.status = "queued" ∨ rv.status = "in_progress") →
      pollLoop env (rv :: rest) =
        ((pollLoop env rest).1,
          Event.pollRun :: Event.sleepSecs 3 :: (pollLoop env rest).2)) ∧
    (∀ n, (pollLoop env (List.replicate n ⟨"queued", none⟩)).1 =
      .ok .outOfPolls) ∧
    (∀ rv ra rest outs fevs, rv.status = "requires_action" →
      rv.required_action = some ra → ra.type = "submit_tool_outputs" →
      fulfillBatch env ra.tool_calls = (.ok outs, fevs) →
      pollLoop env (rv :: rest) =
        ((pollLoop env rest).1,
          Event.pollRun ::
            (fevs ++ Event.submitToolOutputs outs :: (pollLoop env rest).2))) ∧
    (∀ polls, (pollLoop env polls).1 = .ok .completed →
      ∃ rv ∈ polls, rv.status = "completed") ∧
    (∀ polls s, (pollLoop env polls).1 = .ok (.terminalOther s) →
      ∃ rv ∈ polls, rv.status = s ∧ ¬ s = "requires_action" ∧ ¬ s = "queued" ∧
        ¬ s = "in_progress" ∧ ¬ s = "completed") ∧
    (∀ polls outs, Event.submitToolOutputs outs ∈ (pollLoop env polls).2 →
      ∃ rv ∈ polls, rv.status = "requires_action" ∧
        ∃ ra, rv.required_action = some ra ∧ ra.type = "submit_tool_outputs") := by
  refine ⟨pollLoop_queued env, ?_, ?_, pollLoop_completed_mem env,
    fun polls s => pollLoop_terminalOther_mem env polls,
    pollLoop_submit_mem env⟩
  · intro n
    induction n with
    | zero => rfl
    | succ n ih =>
      rw [List.replicate_succ,
        pollLoop_queued env ⟨"queued", none⟩ _ (Or.inl rfl)]
      exact ih
  · intro rv ra rest outs fevs hst hra hty hb
    exact pollLoop_requires_submit env rv ra rest hst hra hty hb

/-- C7 witness: one queued poll sleeps 3 and re-polls; five queued polls
never exit; a submit batch of one unknown call submits exactly its
output and returns to polling. -/
theorem c7_witness :
    pollLoop envBase (⟨"queued", none⟩ :: []) =
      ((pollLoop envBase []).1,
        Event.pollRun :: Event.sleepSecs 3 :: (pollLoop envBase []).2) ∧
    (pollLoop envBase (List.replicate 5 ⟨"queued", none⟩)).1 =
      .ok .outOfPolls ∧
    pollLoop envBase (raView [wCallUnknown] :: []) =
      ((pollLoop envBase []).1,
        Event.pollRun ::
          ([] ++ Event.submitToolOutputs
            [⟨wCallUnknown.id,
              dumps (Json.obj [("error",
                Json.str ("Unknown tool: " ++ wCallUnknown.name))])⟩] ::
            (pollLoop envBase []).2)) :=
  ⟨(c7_poll_loop_step_relation envBase).1 ⟨"queued", none⟩ [] (Or.inl rfl),
   (c7_poll_loop_step_relation envBase).2.1 5,
   (c7_poll_loop_step_relation envBase).2.2.1 (raView [wCallUnknown])
     ⟨"submit_tool_outputs", [wCallUnknown]⟩ [] _ _ rfl rfl rfl rfl⟩

/-- C9: `json.loads` runs on the arguments before the tool name is
inspected, so a tool call with unparseable arguments — whatever its
name, in particular an unrecognized one — raises JSONDecodeError and
aborts the loop instead of being answered with the contained
Unknown-tool payload. -/
theorem c9_parse_before_dispatch (env : Env) (tc : ToolCall)
    (rest : List RunView) (h : loads tc.arguments = .error .jsonDecodeError) :
    processToolCall env tc = (.error .jsonDecodeError, []) ∧
    pollLoop env (raView [tc] :: rest) =
      (.error .jsonDecodeError, [Event.pollRun]) := by
  have hres : toolCallResult env tc = (.error .jsonDecodeError, []) := by
    unfold toolCallResult
    rw [h]
  have hb : fulfillBatch env [tc] = (.error .jsonDecodeError, []) := by
    unfold fulfillBatch
    rw [processToolCall_of_result_error hres]
  exact ⟨processToolCall_of_result_error hres,
    pollLoop_requires_submit_error env _ _ rest rfl rfl rfl hb⟩

/-- C9 witness: the unrecognized call `bogus_tool` with arguments
`not json` aborts the driver with a parse error instead of an error
payload. -/
theorem c9_witness :
    processToolCall envBase ⟨"call_x", "bogus_tool", "not json"⟩ =
      (.error .jsonDecodeError, []) ∧
    pollLoop envBase (raView [⟨"call_x", "bogus_tool", "not json"⟩] :: []) =
      (.error .jsonDecodeError, [Event.pollRun]) :=
  c9_parse_before_dispatch envBase ⟨"call_x", "bogus_tool", "not json"⟩ [] rfl

/-- C10: a requires_action poll whose action type is not
submit_tool_outputs contributes only the poll itself to the iteration:
nothing is submitted, nothing raised, no sleep happens, and the loop
immediately re-polls; while such polls persist the loop never exits and
never sleeps (a busy loop). -/
theorem c10_non_submit_action_busy_loops (env : Env) (ra : RequiredAction)
    (rest : List RunView) (h : ¬ ra.type = "submit_tool_outputs") :
    pollLoop env ((⟨"requires_action", some ra⟩ : RunView) :: rest) =
      ((pollLoop env rest).1, Event.pollRun :: (pollLoop env rest).2) ∧
    ∀ n, pollLoop env (List.replicate n ⟨"requires_action", some ra⟩) =
      (.ok .outOfPolls, List.replicate n Event.pollRun) := by
  refine ⟨pollLoop_requires_other env _ ra rest rfl rfl h, ?_⟩
  intro n
  induction n with
  | zero => rfl
  | succ n ih =>
    rw [List.replicate_succ,
      pollLoop_requires_other env _ ra _ rfl rfl h, ih, List.replicate_succ]

/-- C10 witness: three polls reporting a `cancel`-typed required action
are consumed with three immediate re-polls: no sleep, no submission, no
exit. -/
theorem c10_witness :
    pollLoop envBase
        ((⟨"requires_action", some ⟨"cancel", []⟩⟩ : RunView) :: []) =
      ((pollLoop envBase []).1, Event.pollRun :: (pollLoop envBase []).2) ∧
    ∀ n, pollLoop envBase
        (List.replicate n ⟨"requires_action", some ⟨"cancel", []⟩⟩) =
      (.ok .outOfPolls, List.replicate n Event.pollRun) :=
  c10_non_submit_action_busy_loops envBase ⟨"cancel", []⟩ [] (by decide)

/-- An environment whose run fails on the first poll. -/
def envFailed : Env := { envBase with polls := [⟨"failed", none⟩] }

/-- C1, counterexample: a run that goes straight to status `failed` does
exit the loop without raising — but the driver then *does* attempt
result extraction: the very next interaction is the thread-message
listing, refuting "no message listing" after a terminal-other status. -/
theorem c1_counterexample :
    create_thread_and_run envFailed "asst_1" =
      (DriverOutcome.finished none,
        [Event.createThread, Event.createMessage "user" user_prompt,
          Event.createRun "asst_1", Event.pollRun, Event.listMessages]) ∧
    Event.listMessages ∈ (create_thread_and_run envFailed "asst_1").2 := by
  constructor
  · rfl
  · have h2 : (create_thread_and_run envFailed "asst_1").2 =
        [Event.createThread, Event.createMessage "user" user_prompt,
          Event.createRun "asst_1", Event.pollRun, Event.listMessages] := rfl
    rw [h2]
    simp

/-- C1 (amended): when the poll loop exits on a terminal status other
than completed, `create_thread_and_run` ends without raising an
exception, but result extraction is still attempted: the thread messages
are listed unconditionally (with text concatenation and file download
following whenever assistant messages and a file id are present). -/
theorem c1_terminal_other_no_raise_still_extracts (env : Env) (aid : String)
    (s : String) (evs : List Event)
    (h : pollLoop env env.polls = (.ok (.terminalOther s), evs)) :
    (∃ txt, (create_thread_and_run env aid).1 = .finished txt) ∧
    Event.listMessages ∈ (create_thread_and_run env aid).2 := by
  rw [create_thread_and_run_terminalOther env aid h]
  refine ⟨⟨(extractResults env).1, rfl⟩, ?_⟩
  have hm : Event.listMessages ∈ (extractResults env).2 := by
    rcases extract_events_cases env with hc | hc | ⟨fid, hc⟩ <;> rw [hc] <;> simp
  simp [hm]

/-- C1 witness: the `failed`-run environment instantiates the amended
claim. -/
theorem c1_witness :
    (∃ txt, (create_thread_and_run envFailed "asst_1").1 = .finished txt) ∧
    Event.listMessages ∈ (create_thread_and_run envFailed "asst_1").2 :=
  c1_terminal_other_no_raise_still_extracts envFailed "asst_1" "failed"
    [Event.pollRun] rfl

/-- A recognized tool call whose arguments parse as JSON (`{}`) but lack
the required fields. -/
def wCallNoFields : ToolCall := ⟨"call_1", "retrieve_stock_data", "\x7b\x7d"⟩

/-- C2, counterexample: a requires_action batch of N = 1 tool calls, its
single call recognized and carrying the parseable JSON arguments `{}`,
makes the driver raise `KeyError: function`: no ToolOutput is produced
and no submit_tool_outputs call happens, refuting "exactly N ToolOutputs
… submitted" for arbitrary parseable-argument batches. -/
theorem c2_counterexample :
    loads wCallNoFields.arguments = .ok (Json.obj []) ∧
    pollLoop envBase [raView [wCallNoFields]] =
      (.error (.keyError "function"), [Event.pollRun]) :=
  ⟨rfl, rfl⟩

/-- C2 (amended): whenever every call of the batch completes its body
without an exception (arguments parse; recognized calls carry the
required fields and the Market Data Client returns a result), the driver
produces exactly N ToolOutputs, one per ToolCall with its tool_call_id,
in exactly the remote-supplied order, and submits them together in one
single submit_tool_outputs call before returning to polling. -/
theorem c2_batch_order_single_submit (env : Env) (calls : List ToolCall)
    (rest : List RunView) (h : ∀ tc ∈ calls, callFulfillable env tc) :
    ∃ outs fevs, fulfillBatch env calls = (.ok outs, fevs) ∧
      outs.map (fun o => o.tool_call_id) = calls.map (fun c => c.id) ∧
      (∀ o2, Event.submitToolOutputs o2 ∉ fevs) ∧
      pollLoop env (raView calls :: rest) =
        ((pollLoop env rest).1,
          Event.pollRun ::
            (fevs ++ Event.submitToolOutputs outs :: (pollLoop env rest).2)) := by
  obtain ⟨outs, fevs, hb, hmap⟩ := fulfillBatch_ok env calls h
  refine ⟨outs, fevs, hb, hmap, ?_, ?_⟩
  · intro o2
    exact submit_not_in_fulfill_events env calls (by rw [hb]) o2
  · exact pollLoop_requires_submit env _ _ rest rfl rfl rfl hb

/-- C2 witness: the two-call batch (one recognized market-data call, one
`do_something_else`) yields exactly two outputs, ids in order, one
submission. -/
theorem c2_witness :
    ∃ outs fevs,
      fulfillBatch envBase [wCallRecognized, wCallUnknown] = (.ok outs, fevs) ∧
      outs.map (fun o => o.tool_call_id) =
        [wCallRecognized, wCallUnknown].map (fun c => c.id) ∧
      (∀ o2, Event.submitToolOutputs o2 ∉ fevs) ∧
      pollLoop envBase (raView [wCallRecognized, wCallUnknown] :: []) =
        ((pollLoop envBase []).1,
          Event.pollRun ::
            (fevs ++ Event.submitToolOutputs outs ::
              (pollLoop envBase []).2)) :=
  c2_batch_order_single_submit envBase [wCallRecognized, wCallUnknown] []
    (by
      intro tc htc
      simp only [List.mem_cons, List.not_mem_nil, or_false] at htc
      rcases htc with h | h <;> subst h <;> exact ⟨_, _, rfl⟩)

/-- C4: if the Market Data Client raises while fulfilling a recognized
tool call of a batch whose earlier calls fulfil fine, the exception
propagates out of the loop unchanged — no error ToolOutput is
synthesized for that call, no submit_tool_outputs happens for the batch
(the outputs already computed for earlier calls included), and the whole
driver ends raised. -/
theorem c4_client_failure_propagates (env : Env) (pre : List ToolCall)
    (tc : ToolCall) (post : List ToolCall) (rest : List RunView)
    (a fv sv : Json) (e : PyError) (revs : List Event)
    (hpre : ∀ c ∈ pre, callFulfillable env c)
    (hname : tc.name = "retrieve_stock_data" ∨ tc.name = "get_stock_data")
    (hargs : loads tc.arguments = .ok a)
    (hf : dictGet a "function" = .ok fv)
    (hs : dictGet a "symbol" = .ok sv)
    (hfail : retrieve_stock_data env fv sv = (.error e, revs)) :
    ∃ tevs, pollLoop env (raView (pre ++ tc :: post) :: rest) =
        (.error e, tevs) ∧
      (∀ outs, Event.submitToolOutputs outs ∉ tevs) ∧
      (∀ aid, env.polls = raView (pre ++ tc :: post) :: rest →
        (create_thread_and_run env aid).1 = .raised e) := by
  have hres : toolCallResult env tc = (.error e, revs) := by
    unfold toolCallResult
    rw [hargs]
    dsimp only
    rw [if_pos hname, hf, hs]
    exact hfail
  obtain ⟨fevs, hb⟩ := fulfillBatch_error env pre tc post hpre hres
  have hpoll : pollLoop env (raView (pre ++ tc :: post) :: rest) =
      (.error e, Event.pollRun :: fevs) :=
    pollLoop_requires_submit_error env _ _ rest rfl rfl rfl hb
  refine ⟨Event.pollRun :: fevs, hpoll, ?_, ?_⟩
  · intro outs hm
    simp only [List.mem_cons] at hm
    rcases hm with hm | hm
    · exact Event.noConfusion hm
    · exact submit_not_in_fulfill_events env (pre ++ tc :: post)
        (by rw [hb]) outs hm
  · intro aid hp
    rw [create_thread_and_run_raised env aid (by rw [hp]; exact hpoll)]

/-- An environment whose market-data provider answers 500. -/
def env500 : Env := { envBase with http_get := fun _ _ _ => ⟨500, ""⟩ }

/-- C4 witness: with the provider answering 500, a batch of an already
fulfilled unknown call followed by a recognized call ends the driver
raised with the HTTP error; nothing is submitted. -/
theorem c4_witness :
    ∃ tevs, pollLoop env500 (raView ([wCallUnknown] ++ wCallRecognized :: []) :: []) =
        (.error (.httpError 500), tevs) ∧
      (∀ outs, Event.submitToolOutputs outs ∉ tevs) ∧
      (∀ aid, env500.polls = raView ([wCallUnknown] ++ wCallRecognized :: []) :: [] →
        (create_thread_and_run env500 aid).1 = .raised (.httpError 500)) :=
  c4_client_failure_propagates env500 [wCallUnknown] wCallRecognized [] []
    (Json.obj [("function", Json.str "TIME_SERIES_MONTHLY"),
      ("symbol", Json.str "AAPL")])
    (Json.str "TIME_SERIES_MONTHLY") (Json.str "AAPL") (.httpError 500)
    [Event.httpGet queryUrl
      [("function", Json.str "TIME_SERIES_MONTHLY"),
        ("symbol", Json.str "AAPL"), ("apikey", Json.str "av-key")] 15]
    (by
      intro c hc
      simp only [List.mem_singleton] at hc
      subst hc
      exact ⟨_, _, rfl⟩)
    (Or.inl rfl) rfl rfl rfl rfl

/-- An environment whose market-data provider answers 304 (not a 2xx
status, and not one `raise_for_status` raises on) with a JSON body. -/
def env304 : Env := { envBase with http_get := fun _ _ _ => ⟨304, "\x7b\x7d"⟩ }

/-- C5, counterexample: a 304 response — not a 2xx — raises no transport
error: `raise_for_status` only raises on 4xx/5xx, so the call returns
the parsed body, refuting "raises a transport error on a non-2xx
response". -/
theorem c5_counterexample :
    (304 < 200 ∨ 300 ≤ 304) ∧
    retrieve_stock_data env304 (Json.str "TIME_SERIES_DAILY")
        (Json.str "AAPL") =
      (.ok (Json.obj []),
        [Event.httpGet queryUrl
          [("function", Json.str "TIME_SERIES_DAILY"),
            ("symbol", Json.str "AAPL"), ("apikey", Json.str "av-key")] 15]) :=
  ⟨Or.inr (by decide), rfl⟩

/-- C5 (amended): for every series kind and every ticker string: with the
market-data key missing (or empty) the call raises the configuration
error and performs no HTTP request; with a truthy key it performs
exactly one GET carrying the function, symbol and apikey parameters with
the 15-unit timeout, raises a transport error exactly when the status is
4xx/5xx (`raise_for_status`, instead of the claimed "any non-2xx"), and
on a 2xx response returns the body parsed as JSON. -/
theorem c5_market_client_contract (env : Env) (f s : String) :
    (alphaKeyMissing env →
      retrieve_stock_data env (.str f) (.str s) =
        (.error (.runtimeError alphaKeyMissingMsg), [])) ∧
    (∀ k, env.alpha_vantage_api_key = some k → ¬ k = "" →
      (retrieve_stock_data env (.str f) (.str s)).2 =
        [Event.httpGet queryUrl
          [("function", .str f), ("symbol", .str s), ("apikey", .str k)] 15] ∧
      ∀ st body,
        env.http_get queryUrl
            [("function", .str f), ("symbol", .str s), ("apikey", .str k)] 15 =
          ⟨st, body⟩ →
        (400 ≤ st ∧ st < 600 →
          (retrieve_stock_data env (.str f) (.str s)).1 =
            .error (.httpError st)) ∧
        (200 ≤ st → st < 300 → ∀ j, loads body = .ok j →
          (retrieve_stock_data env (.str f) (.str s)).1 = .ok j)) := by
  constructor
  · intro h
    unfold retrieve_stock_data
    rcases h with h | h <;> rw [h] <;> rfl
  · intro k hk hk2
    unfold retrieve_stock_data
    rw [hk]
    dsimp only
    rw [if_neg hk2]
    refine ⟨rfl, ?_⟩
    intro st body hresp
    rw [hresp]
    constructor
    · intro hcond
      dsimp only
      rw [if_pos hcond]
    · intro hlo hhi j hj
      dsimp only
      rw [if_neg (by omega), hj]

/-- An environment with no market-data key at all. -/
def envNoAlpha : Env := { envBase with alpha_vantage_api_key := none }

/-- C5 witness: missing key → configuration error with no request;
present key → the 500 provider raises the transport error and the 200
provider returns the parsed body. -/
theorem c5_witness :
    retrieve_stock_data envNoAlpha (.str "TIME_SERIES_DAILY") (.str "AAPL") =
      (.error (.runtimeError alphaKeyMissingMsg), []) ∧
    (retrieve_stock_data env500 (.str "TIME_SERIES_DAILY") (.str "AAPL")).1 =
      .error (.httpError 500) ∧
    (retrieve_stock_data envBase (.str "TIME_SERIES_DAILY") (.str "AAPL")).1 =
      .ok (Json.obj []) :=
  ⟨(c5_market_client_contract envNoAlpha "TIME_SERIES_DAILY" "AAPL").1
      (Or.inl rfl),
   (((c5_market_client_contract env500 "TIME_SERIES_DAILY" "AAPL").2
      "av-key" rfl (by decide)).2 500 "" rfl).1 (by omega),
   (((c5_market_client_contract envBase "TIME_SERIES_DAILY" "AAPL").2
      "av-key" rfl (by decide)).2 200 "\x7b\x7d" rfl).2 (by omega) (by omega)
      (Json.obj []) rfl⟩

/-- C6: the provisioner is idempotent by name: when the first 20 listed
assistants contain one named `stock_analyzer_assistant`, the first such
assistant is returned unchanged, the backend is untouched, no create
call is issued, and a second invocation returns the identical id; only
when no match exists among the listed assistants is a create issued. -/
theorem c6_provisioner_idempotent (b : Backend) :
    (∀ a, (b.assistants.take 20).find? (fun x => x.name = ASSISTANT_NAME) =
        some a →
      get_or_create_assistant b = (a, b, [Event.listAssistants 20]) ∧
      (∀ id2, Event.createAssistant id2 ∉ (get_or_create_assistant b).2.2) ∧
      (get_or_create_assistant ((get_or_create_assistant b).2.1)).1.id =
        a.id) ∧
    ((b.assistants.take 20).find? (fun x => x.name = ASSISTANT_NAME) = none →
      Event.createAssistant b.fresh_id ∈ (get_or_create_assistant b).2.2) := by
  constructor
  · intro a ha
    have heq := get_or_create_found b ha
    refine ⟨heq, ?_, ?_⟩
    · rw [heq]
      intro id2
      simp
    · rw [heq]
      show (get_or_create_assistant b).1.id = a.id
      rw [heq]
  · intro hn
    rw [get_or_create_notfound b hn]
    simp

def decoyAssistant : Assistant :=
  ⟨"asst_0", "other_assistant", "", "gpt-4o-mini", Json.null⟩

def matchAssistant : Assistant :=
  ⟨"asst_1", ASSISTANT_NAME, "", "gpt-4o-mini", Json.null⟩

def matchAssistant2 : Assistant :=
  ⟨"asst_2", ASSISTANT_NAME, "", "gpt-4o-mini", Json.null⟩

/-- A backend already holding a same-named assistant (and a decoy before
it, and a second match after it). -/
def backendMatch : Backend :=
  ⟨[decoyAssistant, matchAssistant, matchAssistant2], "asst_new"⟩

/-- C6 witness: against `backendMatch` the provisioner returns the first
match `asst_1`, creates nothing, and a second invocation returns the
identical id. -/
theorem c6_witness :
    get_or_create_assistant backendMatch =
      (matchAssistant, backendMatch, [Event.listAssistants 20]) ∧
    (∀ id2, Event.createAssistant id2 ∉
      (get_or_create_assistant backendMatch).2.2) ∧
    (get_or_create_assistant
        ((get_or_create_assistant backendMatch).2.1)).1.id =
      matchAssistant.id :=
  (c6_provisioner_idempotent backendMatch).1 matchAssistant rfl

/-- A backend already holding the named assistant, for the C8 run. -/
def backendC8 : Backend := ⟨[matchAssistant], "asst_new"⟩

/-- An execution with the assistant-service key present but the
market-data key absent, whose run immediately requires the recognized
tool call. -/
def envC8 : Env :=
  { envBase with
    alpha_vantage_api_key := none
    polls := [raView [wCallRecognized]] }

/-- C8, counterexample: with the assistant-service key present and the
market-data key absent, the configuration error is raised only after
five network interactions (assistant listing, thread creation, message
creation, run creation, one poll) — refuting "fails with a configuration
error before any network call" for the market-data key. -/
theorem c8_counterexample :
    main envC8 backendC8 =
      (.raised (.runtimeError alphaKeyMissingMsg),
        [Event.listAssistants 20, Event.createThread,
          Event.createMessage "user" user_prompt,
          Event.createRun "asst_1", Event.pollRun]) ∧
    Event.listAssistants 20 ∈ (main envC8 backendC8).2 ∧
    Event.isNetwork (Event.listAssistants 20) = true := by
  refine ⟨rfl, ?_, rfl⟩
  have h2 : (main envC8 backendC8).2 =
      [Event.listAssistants 20, Event.createThread,
        Event.createMessage "user" user_prompt,
        Event.createRun "asst_1", Event.pollRun] := rfl
  rw [h2]
  simp

/-- C8 (amended): the assistant-service key is checked in `get_client`
before any interaction at all — a missing (or empty) `OPENAI_API_KEY`
raises the configuration error with an empty trace; the market-data key
is checked inside `retrieve_stock_data` before the market-data request —
with it missing no market-data GET is ever issued — but that check runs
only when a tool call is fulfilled, after earlier assistant-service
network calls, not pre-flight. -/
theorem c8_missing_keys (env : Env) (b : Backend) :
    ((env.openai_api_key = none ∨ env.openai_api_key = some "") →
      main env b = (.raised (.runtimeError openaiKeyMissingMsg), [])) ∧
    (alphaKeyMissing env →
      ∀ e ∈ (main env b).2, isHttpGetEvent e = false) := by
  constructor
  · intro h
    have hc : get_client env = .error (.runtimeError openaiKeyMissingMsg) := by
      unfold get_client
      rcases h with h | h <;> rw [h] <;> rfl
    unfold main
    rw [hc]
  · intro h
    exact main_no_httpGet_of_missing env b h

/-- An environment with no assistant-service key. -/
def envNoOpenai : Env := { envBase with openai_api_key := none }

/-- C8 witness: no `OPENAI_API_KEY` → immediate configuration error,
empty trace; no `ALPHA_VANTAGE_API_KEY` → the whole trace holds no
market-data GET. -/
theorem c8_witness :
    main envNoOpenai backendC8 =
      (.raised (.runtimeError openaiKeyMissingMsg), []) ∧
    (∀ e ∈ (main envC8 backendC8).2, isHttpGetEvent e = false) :=
  ⟨(c8_missing_keys envNoOpenai backendC8).1 (Or.inl rfl),
   (c8_missing_keys envC8 backendC8).2 (Or.inl rfl)⟩

end StockAnalyser
